import Mathlib

/-!
Verification development for the conversation-logging core of
`ai_ta_backend/nomic_logging.py`.

The Python source is shallowly embedded below:

* messages, conversations and indexed records become Lean structures;
* the transcript formatting loops of `log_convo_to_nomic` and
  `create_nomic_map` become the recursive function `appendMessages`;
* Python's `str.split("\n")` and `str.split(": ")` become `splitNl` /
  `splitColonSp` over `List Char` (leftmost, non-overlapping matches,
  exactly Python's semantics for a non-empty separator);
* the remote index snapshot (`project.maps[1].data.df` together with
  `project.maps[1].embeddings.latent`) is modelled as a list of records
  plus a positionally aligned list of embedding vectors, with the usual
  0-based `RangeIndex` of a freshly fetched pandas DataFrame;
* numpy / pandas positional indexing (negative indices allowed) becomes
  `pyGet`;
* pandas `Series.max()` over the `id` column becomes `maxId`
  (`none` models the NaN produced on an empty frame, which then
   propagates through `last_id + 1`);
* `pd.to_datetime(x).strftime('%Y-%m-%d %H:%M:%S')` is modelled as the
  identity on the stored timestamp string, because every timestamp the
  program itself stores is already in that exact format;
* the `backoff.on_exception` decorator (expo wait generator with
  `base=10, factor=1.5`, `max_tries=5`, `raise_on_giveup=False`,
  `giveup=giveup_hdlr`) becomes the explicit retry loop `runFrom`; the
  waits recorded are the raw wait-generator values `1.5 * 10 ^ n`;
* exceptions carry their Python `args` tuple, so that the unpacking
  `(e_args,) = e.args` followed by `e_args['exception']` performed by
  `giveup_hdlr` can fail exactly where the Python code would fail.
-/

/-- A message content: either a plain string or a structured list of
content parts, of which only the first part's text is ever used
(`message['content'][0]['text']` in the source). -/
inductive Content where
  | str (s : String)
  | list (parts : List String)
deriving DecidableEq

/-- Resolved display text of a content value.  `none` models the
`IndexError` raised by `content[0]` on an empty list. -/
def Content.text? : Content → Option String
  | Content.str s => some s
  | Content.list (p :: _) => some p
  | Content.list [] => none

/-- A role-tagged message, `{'role': ..., 'content': ...}`. -/
structure Message where
  role : String
  content : Content
deriving DecidableEq

/-- The conversation payload `conversation['conversation']`:
id, user_email and the ordered message list. -/
structure Conversation where
  id : String
  user_email : String
  messages : List Message
deriving DecidableEq

/-- Role marker chosen by every formatting loop in the source:
`"🙋 "` for `'user'`, `"🤖 "` for anything else. -/
def emoji (role : String) : String :=
  if role = "user" then "🙋 " else "🤖 "

/-- One formatted transcript block,
`"\n>>> " + emoji + message['role'] + ": " + text + "\n"`.
`none` models the `IndexError` on an empty structured content. -/
def formatLine (m : Message) : Option String :=
  match m.content.text? with
  | none => none
  | some t => some ("\n>>> " ++ emoji m.role ++ m.role ++ ": " ++ t ++ "\n")

/-- The transcript accumulation loop (`prev_convo += ...` resp.
`conversation_string += ...`): starting from `acc`, append the formatted
block of every message in order. -/
def appendMessages (acc : String) : List Message → Option String
  | [] => some acc
  | m :: ms =>
    match formatLine m with
    | none => none
    | some l => appendMessages (acc ++ l) ms

/-- Python's `messages[-2:]`: the last two elements, or the whole list
when it has fewer than two elements. -/
def lastTwo (l : List α) : List α := l.drop (l.length - 2)

/-- Python's `s.split("\n")` over the character list (single-character
separator, leftmost matches). -/
def splitNl : List Char → List (List Char)
  | [] => [[]]
  | c :: rest =>
    if c = '\n' then [] :: splitNl rest
    else
      match splitNl rest with
      | [] => [[c]]
      | h :: t => (c :: h) :: t

/-- Python's `s.split(": ")` over the character list (two-character
separator, leftmost non-overlapping matches). -/
def splitColonSp : List Char → List (List Char)
  | [] => [[]]
  | [c] => [[c]]
  | c1 :: c2 :: rest =>
    if c1 = ':' ∧ c2 = ' ' then [] :: splitColonSp rest
    else
      match splitColonSp (c2 :: rest) with
      | [] => [[c1]]
      | h :: t => (c1 :: h) :: t

/-- Whether the two-character pattern `": "` occurs in the list. -/
def hasColonSp : List Char → Bool
  | c1 :: c2 :: rest =>
    if c1 = ':' ∧ c2 = ' ' then true else hasColonSp (c2 :: rest)
  | _ => false

/-- Line 105 of the source:
`first_message = prev_convo.split("\n")[1].split(": ")[1]`.
`none` models the `IndexError` when either index is out of range. -/
def parse_first_query (s : String) : Option String :=
  match (splitNl s.data)[1]? with
  | none => none
  | some line =>
    match (splitColonSp line)[1]? with
    | none => none
    | some seg => some (String.mk seg)

/-- An embedding vector (the concrete scalar type is irrelevant to the
claims; the remote store only moves vectors around). -/
abbrev Emb := List Int

/-- The metadata row stored in the remote index.  `id` is `Option Nat`:
`none` models the NaN that pandas produces for `max()` of an empty `id`
column and that then propagates through `last_id + 1`.  `first_query`
is a `Content` because `create_nomic_map` stores the *raw* content of
the triggering conversation's first message (line 350), which may be a
structured list rather than a string. -/
structure IndexedRecord where
  course : String
  conversation : String
  conversation_id : String
  id : Option Nat
  user_email : String
  first_query : Content
  created_at : String
  modified_at : String
deriving DecidableEq

/-- Snapshot of a course's remote index: the metadata frame
`project.maps[1].data.df` (rows in frame order, 0-based positions) and
the embedding matrix `project.maps[1].embeddings.latent`, aligned
positionally with the metadata rows. -/
structure Snapshot where
  records : List IndexedRecord
  embeddings : List Emb
deriving DecidableEq

/-- Python / numpy positional indexing with negative indices:
`l[i]` is `l[len l + i]` for `i < 0`; out of range is an error. -/
def pyGet (l : List α) (i : Int) : Option α :=
  if 0 ≤ i then l[i.toNat]?
  else if (-i).toNat ≤ l.length then l[l.length - (-i).toNat]? else none

/-- The string cells of a metadata row, as they appear in
`map_metadata_df.values` (the integer `id` cell can never compare equal
to a string conversation id, and a structured-list `first_query` cell
cannot either, so both are omitted). -/
def recValues (r : IndexedRecord) : List String :=
  [r.course, r.conversation, r.conversation_id, r.user_email,
   r.created_at, r.modified_at] ++
  (match r.first_query with
   | Content.str s => [s]
   | Content.list _ => [])

/-- Line 92 of the source: `conversation_id in map_metadata_df.values`,
i.e. membership of the id among *all* cells of the frame. -/
def inValues (records : List IndexedRecord) (cid : String) : Bool :=
  records.any (fun r => (recValues r).any (fun v => v == cid))

/-- `map_metadata_df['id'].max()`: `none` models the NaN returned on an
empty frame. -/
def maxId : List Nat → Option Nat
  | [] => none
  | x :: xs => some (xs.foldl max x)

/-- `last_id` of line 90, over the ids actually present in the frame. -/
def last_id (snap : Snapshot) : Option Nat :=
  maxId (snap.records.filterMap (fun r => r.id))

/-- Outcome of one body of `log_convo_to_nomic` (the record handed to
the upsert executor): an UPDATE carries the reused embedding and the
row id passed to `project.delete_data`, an INSERT carries the freshly
computed embedding; `error` models an exception escaping the `try`
block (it is re-raised as `Exception({"exception": str(e)})`). -/
inductive StepResult where
  | updated (rec : IndexedRecord) (emb : Emb) (deletedId : Option Nat)
  | inserted (rec : IndexedRecord) (emb : Emb)
  | error (msg : String)
deriving DecidableEq

/-- The record produced, if any. -/
def StepResult.rec? : StepResult → Option IndexedRecord
  | StepResult.updated r _ _ => some r
  | StepResult.inserted r _ => some r
  | StepResult.error _ => none

/-- The embedding attached to the produced record, if any. -/
def StepResult.emb? : StepResult → Option Emb
  | StepResult.updated _ e _ => some e
  | StepResult.inserted _ e => some e
  | StepResult.error _ => none

/-- Lines 84–183 of the source: the single synchronization attempt of
`log_convo_to_nomic`, given the freshly fetched snapshot, the
embedding-model service `embed` and the formatted current time `now`.

UPDATE path (lines 92–135): locate the first row whose
`conversation_id` column equals the incoming id, reuse the embedding at
position `prev_index - 1` of the latent matrix (`prev_index` being the
0-based frame index of that row, with Python's negative-index
semantics), delete the prior row (`prev.id`), re-derive `first_query`
by parsing the prior transcript, append the formatted blocks of the
newest two messages onto the prior transcript, and build the new row
with `id = last_id + 1`, the prior `created_at` and `modified_at = now`.

INSERT path (lines 137–177): build the transcript from all messages,
take `first_query` from the first message's resolved text, embed that
text, and build the row with `id = last_id + 1` and both timestamps
`now`. -/
def logStep (course : String) (conv : Conversation) (snap : Snapshot)
    (embed : String → Emb) (now : String) : StepResult :=
  if inValues snap.records conv.id then
    match snap.records.find? (fun r => r.conversation_id == conv.id) with
    | none => StepResult.error "IndexError"
    | some prev =>
      match pyGet snap.embeddings
          ((snap.records.findIdx (fun r => r.conversation_id == conv.id) : Int) - 1) with
      | none => StepResult.error "IndexError"
      | some emb =>
        match parse_first_query prev.conversation with
        | none => StepResult.error "IndexError"
        | some fq =>
          match appendMessages prev.conversation (lastTwo conv.messages) with
          | none => StepResult.error "IndexError"
          | some nc =>
            StepResult.updated
              { course := course
                conversation := nc
                conversation_id := conv.id
                id := (last_id snap).map (fun k => k + 1)
                user_email := conv.user_email
                first_query := Content.str fq
                created_at := prev.created_at
                modified_at := now }
              emb prev.id
  else
    match conv.messages with
    | [] => StepResult.error "IndexError"
    | m0 :: _ =>
      match m0.content.text? with
      | none => StepResult.error "IndexError"
      | some t0 =>
        match appendMessages "" conv.messages with
        | none => StepResult.error "IndexError"
        | some cs =>
          StepResult.inserted
            { course := course
              conversation := cs
              conversation_id := conv.id
              id := (last_id snap).map (fun k => k + 1)
              user_email := conv.user_email
              first_query := Content.str t0
              created_at := now
              modified_at := now }
            (embed t0)

/-- A historical conversation row fetched from the relational store
(`supabase` table `llm-convo-monitor`): lines 264–268 of the source
read `user_email`, `created_at`, `course_name` and `convo{id, messages}`
from it. -/
structure HistRow where
  course_name : String
  user_email : String
  created_at : String
  convo_id : String
  messages : List Message
deriving DecidableEq

/-- Outcome of `create_nomic_map`: `deferred` is the `return None` taken
when fewer than 19 historical rows exist; `bulk` carries the assembled
metadata rows together with the `user_queries` list handed to the batch
embedding call; `failed` is the `return "failed"` taken when any
exception is caught. -/
inductive BootstrapOut where
  | deferred
  | bulk (records : List IndexedRecord) (queries : List Content)
  | failed
deriving DecidableEq

/-- The transcript of the first assembled record, if any. -/
def BootstrapOut.firstTranscript? : BootstrapOut → Option String
  | BootstrapOut.bulk (r :: _) _ => some r.conversation
  | _ => none

/-- Lines 264–323 of the source: the per-historical-row loop of
`create_nomic_map`.  For each row it formats the full transcript,
appends the formatted blocks of *all* the triggering conversation's
messages whenever the row's conversation id equals the triggering id
(setting `conversation_exists`), stores the row's resolved first
message as `first_query`, and assigns the running 1-based counter `i`
as the row id.  `none` models an exception inside the loop
(empty message list or empty structured content). -/
def bootstrapRows (logConv : Conversation) (now : String) :
    List HistRow → Nat → Option (List IndexedRecord × List Content × Bool)
  | [], _ => some ([], [], false)
  | row :: rest, i =>
    match row.messages with
    | [] => none
    | m0 :: _ =>
      match m0.content.text? with
      | none => none
      | some fm =>
        match appendMessages "" row.messages with
        | none => none
        | some convoStr =>
          match
            (if row.convo_id = logConv.id then
              (appendMessages convoStr logConv.messages).map (fun s => (s, true))
            else
              some (convoStr, false)) with
          | none => none
          | some (convoStr2, matched) =>
            match bootstrapRows logConv now rest (i + 1) with
            | none => none
            | some (recs, qs, ex) =>
              some
                ({ course := row.course_name
                   conversation := convoStr2
                   conversation_id := row.convo_id
                   id := some i
                   user_email := row.user_email
                   first_query := Content.str fm
                   created_at := row.created_at
                   modified_at := now } :: recs,
                 Content.str fm :: qs,
                 matched || ex)

/-- Lines 244–372 of the source: `create_nomic_map`.  With fewer than 19
historical rows it returns `None` (Deferred).  Otherwise it assembles
one record per historical row via `bootstrapRows`; if no row's
conversation id matched the triggering conversation, it appends one
final record for the triggering conversation with id `rows.length + 1`,
whose `first_query` (and batch-embedding input) is the *raw* first
content (line 327/350), and whose transcript is the full formatted
message list.  Any exception degrades to `failed`. -/
def create_nomic_map (course : String) (rows : List HistRow)
    (logConv : Conversation) (now : String) : BootstrapOut :=
  if rows.length < 19 then BootstrapOut.deferred
  else
    match bootstrapRows logConv now rows 1 with
    | none => BootstrapOut.failed
    | some (recs, qs, conversation_exists) =>
      if conversation_exists then BootstrapOut.bulk recs qs
      else
        match logConv.messages with
        | [] => BootstrapOut.failed
        | m0 :: _ =>
          match appendMessages "" logConv.messages with
          | none => BootstrapOut.failed
          | some convoStr =>
            BootstrapOut.bulk
              (recs ++
               [{ course := course
                  conversation := convoStr
                  conversation_id := logConv.id
                  id := some (rows.length + 1)
                  user_email := logConv.user_email
                  first_query := m0.content
                  created_at := now
                  modified_at := now }])
              (qs ++ [m0.content])

/-- A Python value as it can appear in an exception's `args` tuple:
either a plain string (e.g. the argument of a `KeyError`) or the
string-to-string dict `{"exception": str(e)}` raised by line 195. -/
inductive PyVal where
  | vstr (s : String)
  | vdict (entries : List (String × String))
deriving DecidableEq

/-- Python dict lookup over the entry list. -/
def dictLookup : List (String × String) → String → Option String
  | [], _ => none
  | (k, v) :: rest, key => if k = key then some v else dictLookup rest key

/-- The three lock / indexing-contention messages of lines 17–19. -/
def LOCK_EXCEPTIONS : List String :=
  ["Project is locked for state access! Please wait until the project is unlocked to access embeddings.",
   "Project is locked for state access! Please wait until the project is unlocked to access data.",
   "Project is currently indexing and cannot ingest new datums. Try again later."]

/-- Line 189: the message signalling that no index exists yet for the
course. -/
def notConfigMsg : String :=
  "You must specify a unique_id_field when creating a new project."

/-- Lines 21–37, `giveup_hdlr(e)`: unpack `(e_args,) = e.args` (a
`ValueError` if the tuple is not a singleton), then read
`e_args['exception']` (a `TypeError` if `e_args` is a string, a
`KeyError` if the key is absent).  Lock messages mean "keep retrying"
(`false`); anything else is captured by `sentry_sdk` and means "give
up" (`true`, paired with the reported message). -/
def giveup_hdlr : List PyVal → Except String (Bool × Option String)
  | [PyVal.vdict entries] =>
    (match dictLookup entries "exception" with
     | none => Except.error "KeyError"
     | some s =>
       if LOCK_EXCEPTIONS.contains s then Except.ok (false, none)
       else Except.ok (true, some s))
  | [PyVal.vstr _] => Except.error "TypeError"
  | _ => Except.error "ValueError"

/-- What the environment (remote store, embedding service, input
well-formedness) makes of one attempt of `log_convo_to_nomic`:
the attempt succeeds, or its `try` block raises an exception with
message `s` (re-raised by line 195 as `Exception({"exception": s})`,
except for the not-configured message, which is handled by the
`create_nomic_map` fallback), or code *before* the `try` block (lines
55–71: login, payload field accesses) raises an exception whose single
`args` entry is `p`. -/
inductive StoreResp where
  | success
  | errMsg (s : String)
  | preErr (p : PyVal)
deriving DecidableEq

/-- Observable side effects of one `log_convo_to_nomic` call. -/
structure Trace where
  attempts : Nat
  bootstrapCalls : Nat
  sentryReports : List String
  delays : List ℚ
deriving DecidableEq

/-- Result of the decorated call: a Python return value (`none` models
Python's `None`) or an exception escaping to the caller. -/
inductive SyncOutcome where
  | returned (v : Option String)
  | raised (msg : String)
deriving DecidableEq

/-- The `backoff.expo(base=10, factor=1.5)` wait-generator value used
before the retry following attempt `n` (0-based): `1.5 * 10 ^ n`. -/
def expoWait (n : Nat) : ℚ := (3 / 2) * 10 ^ n

/-- One attempt of the decorated function, folded over the environment's
response: a normal return (`Sum.inl`), or an escaping exception's
`args` tuple (`Sum.inr`); the boolean records whether the
`create_nomic_map` fallback ran during this attempt.  On the
not-configured message the fallback runs and the function then falls
through and returns `None` (there is no `return` after line 192). -/
def attemptOut (course : String) (r : StoreResp) :
    (Option String ⊕ List PyVal) × Bool :=
  match r with
  | StoreResp.success =>
    (Sum.inl (some ("Successfully logged for " ++ course)), false)
  | StoreResp.errMsg s =>
    if s = notConfigMsg then (Sum.inl none, true)
    else (Sum.inr [PyVal.vdict [("exception", s)]], false)
  | StoreResp.preErr p => (Sum.inr [p], false)

/-- The retry loop of `backoff.on_exception(..., max_tries=5,
raise_on_giveup=False, giveup=giveup_hdlr, on_backoff=backoff_hdlr)`:
call the target; on a normal return, return it; on an exception, run
the giveup handler (which may itself raise), report to sentry whatever
it captured, and either give up (returning `None`, since
`raise_on_giveup=False`) when the handler said so or the attempt budget
is exhausted, or sleep the next expo wait and retry. -/
def runFrom (course : String) (beh : Nat → StoreResp) :
    Nat → Nat → Trace → SyncOutcome × Trace
  | _, 0, tr => (SyncOutcome.returned none, tr)
  | n, tLeft + 1, tr =>
    match attemptOut course (beh n) with
    | (res, boot) =>
      let tr1 : Trace :=
        { tr with
          attempts := tr.attempts + 1
          bootstrapCalls := tr.bootstrapCalls + (if boot then 1 else 0) }
      match res with
      | Sum.inl v => (SyncOutcome.returned v, tr1)
      | Sum.inr args =>
        match giveup_hdlr args with
        | Except.error m => (SyncOutcome.raised m, tr1)
        | Except.ok (g, rep) =>
          let tr2 : Trace :=
            { tr1 with sentryReports := tr1.sentryReports ++ rep.toList }
          if g || tLeft = 0 then (SyncOutcome.returned none, tr2)
          else
            runFrom course beh (n + 1) tLeft
              { tr2 with delays := tr2.delays ++ [expoWait n] }

/-- The decorated `log_convo_to_nomic` as seen by its caller: up to five
attempts, starting with an empty trace. -/
def log_convo_to_nomic (course : String) (beh : Nat → StoreResp) :
    SyncOutcome × Trace :=
  runFrom course beh 0 5 { attempts := 0, bootstrapCalls := 0, sentryReports := [], delays := [] }

/-- Sequential ids `i, i+1, …, i+n-1`. -/
def seqIds (i : Nat) : Nat → List Nat
  | 0 => []
  | n + 1 => i :: seqIds (i + 1) n

/-- A historical row whose formatting cannot raise: a non-empty message
list, every content resolvable. -/
def HistRowWf (r : HistRow) : Prop :=
  r.messages ≠ [] ∧ ∀ m ∈ r.messages, (m.content.text?).isSome = true

instance : DecidablePred HistRowWf := fun _ =>
  inferInstanceAs (Decidable (_ ∧ _))

/-- A conversation whose formatting cannot raise. -/
def ConversationWf (c : Conversation) : Prop :=
  c.messages ≠ [] ∧ ∀ m ∈ c.messages, (m.content.text?).isSome = true

instance : DecidablePred ConversationWf := fun _ =>
  inferInstanceAs (Decidable (_ ∧ _))

/-! ### Concrete fixtures used by witnesses and counterexamples -/

/-- A user message with plain string content. -/
def mU (s : String) : Message := { role := "user", content := Content.str s }

/-- An assistant message with plain string content. -/
def mA (s : String) : Message :=
  { role := "assistant", content := Content.str s }

/-- A deterministic stand-in for the embedding-model service. -/
def embT : String → Emb := fun s => [Int.ofNat s.length]

/-- A stored record for conversation `c1` (row id 1). -/
def R1 : IndexedRecord :=
  { course := "CS", conversation := "\n>>> 🙋 user: hi\n",
    conversation_id := "c1", id := some 1, user_email := "u@e",
    first_query := Content.str "hi",
    created_at := "2023-01-01 00:00:00", modified_at := "2023-01-01 00:00:00" }

/-- A stored record for conversation `c2` (row id 2). -/
def R2 : IndexedRecord :=
  { course := "CS", conversation := "\n>>> 🙋 user: q2\n",
    conversation_id := "c2", id := some 2, user_email := "v@e",
    first_query := Content.str "q2",
    created_at := "2023-01-02 00:00:00", modified_at := "2023-01-02 00:00:00" }

/-- A stored record whose first query contains `": "`. -/
def R10 : IndexedRecord :=
  { course := "CS", conversation := "\n>>> 🙋 user: a: b\n",
    conversation_id := "c10", id := some 1, user_email := "u@e",
    first_query := Content.str "a: b",
    created_at := "2023-01-01 00:00:00", modified_at := "2023-01-01 00:00:00" }

/-- Snapshot holding only `R1`. -/
def snapC1 : Snapshot := { records := [R1], embeddings := [[5]] }

/-- Snapshot holding `R1` and `R2` with distinct embeddings. -/
def snapC2 : Snapshot := { records := [R1, R2], embeddings := [[1], [2]] }

/-- Snapshot holding only `R10`. -/
def snapC10 : Snapshot := { records := [R10], embeddings := [[7]] }

/-- An incoming update for conversation `c1`. -/
def conv1 : Conversation :=
  { id := "c1", user_email := "u@e", messages := [mU "again"] }

/-- An incoming update for conversation `c2`. -/
def conv2 : Conversation :=
  { id := "c2", user_email := "v@e", messages := [mU "again"] }

/-- An incoming update for conversation `c10`. -/
def conv10 : Conversation :=
  { id := "c10", user_email := "u@e", messages := [mU "more"] }

/-- A brand-new conversation. -/
def convNew : Conversation :=
  { id := "c9", user_email := "u@e", messages := [mU "hey", mA "ho"] }

/-- A historical row for an unrelated conversation `h`. -/
def rowH : HistRow :=
  { course_name := "CS", user_email := "h@e",
    created_at := "2023-01-01 00:00:00", convo_id := "h",
    messages := [mU "hq"] }

/-- A historical row for conversation `c`. -/
def rowC : HistRow :=
  { course_name := "CS", user_email := "h@e",
    created_at := "2023-01-01 00:00:00", convo_id := "c",
    messages := [mU "hi"] }

/-- Nineteen historical rows, none matching the triggering id. -/
def rows19 : List HistRow := List.replicate 19 rowH

/-- Nineteen historical rows, the first matching the triggering id. -/
def rows9 : List HistRow := rowC :: List.replicate 18 rowH

/-- A triggering conversation whose id matches no historical row. -/
def logNew : Conversation :=
  { id := "x", user_email := "u@e", messages := [mU "a", mA "b", mU "c"] }

/-- A triggering conversation (three messages) matching `rowC`. -/
def logC9 : Conversation :=
  { id := "c", user_email := "u@e", messages := [mU "a", mA "b", mU "c"] }

/-- Environment: every attempt fails with an unclassified error. -/
def behBoom : Nat → StoreResp := fun _ => StoreResp.errMsg "boom"

/-- Environment: every attempt fails with a lock-contention error. -/
def behAllLock : Nat → StoreResp := fun _ =>
  StoreResp.errMsg
    "Project is currently indexing and cannot ingest new datums. Try again later."

/-- Environment: every attempt raises a bare `KeyError` before the
`try` block (a malformed conversation payload). -/
def behPreKey : Nat → StoreResp := fun _ =>
  StoreResp.preErr (PyVal.vstr "conversation")

/-- Environment: every attempt reports the not-configured condition. -/
def behNC : Nat → StoreResp := fun _ => StoreResp.errMsg notConfigMsg

/-- Environment: lock contention on the first two attempts, success on
the third. -/
def behTr : Nat → StoreResp := fun n =>
  if n < 2 then
    StoreResp.errMsg
      "Project is locked for state access! Please wait until the project is unlocked to access data."
  else StoreResp.success

/-! ### Helper lemmas about the formatter -/

/-- Accumulating from `acc` is appending onto `acc`. -/
theorem appendMessages_acc (ms : List Message) :
    ∀ acc : String, appendMessages acc ms =
      (appendMessages "" ms).map (fun t => acc ++ t) := by
  induction ms with
  | nil => intro acc; simp [appendMessages]
  | cons m ms ih =>
    intro acc
    cases hf : formatLine m with
    | none => simp [appendMessages, hf]
    | some l =>
      simp only [appendMessages, hf]
      rw [ih (acc ++ l), ih ("" ++ l)]
      cases appendMessages "" ms with
      | none => simp
      | some t => simp [String.empty_append, String.append_assoc]

/-- Formatting succeeds whenever every message's content resolves. -/
theorem appendMessages_isSome (ms : List Message)
    (h : ∀ m ∈ ms, (m.content.text?).isSome = true) :
    ∀ acc : String, (appendMessages acc ms).isSome = true := by
  induction ms with
  | nil => intro acc; simp [appendMessages]
  | cons m ms ih =>
    intro acc
    have hm := h m (by simp)
    cases ht : m.content.text? with
    | none => rw [ht] at hm; simp at hm
    | some t =>
      simp only [appendMessages, formatLine, ht]
      exact ih (fun m hm => h m (by simp [hm])) _

/-! ### Helper lemmas about ids -/

/-- Every element of a list is bounded by a `foldl max` over it. -/
theorem le_foldl_max (l : List Nat) :
    ∀ x : Nat, x ≤ l.foldl max x ∧ ∀ j ∈ l, j ≤ l.foldl max x := by
  induction l with
  | nil => intro x; simp
  | cons y ys ih =>
    intro x
    refine ⟨?_, ?_⟩
    · calc x ≤ max x y := le_max_left x y
        _ ≤ ys.foldl max (max x y) := (ih (max x y)).1
    · intro j hj
      rcases List.mem_cons.mp hj with rfl | hj
      · calc j ≤ max x j := le_max_right x j
          _ ≤ ys.foldl max (max x j) := (ih (max x j)).1
      · exact (ih (max x y)).2 j hj

/-- `maxId` bounds every member of the list. -/
theorem maxId_le {l : List Nat} {k : Nat} (h : maxId l = some k) :
    ∀ j ∈ l, j ≤ k := by
  cases l with
  | nil => simp [maxId] at h
  | cons x xs =>
    simp only [maxId, Option.some.injEq] at h
    intro j hj
    rcases List.mem_cons.mp hj with rfl | hj
    · exact h ▸ (le_foldl_max xs j).1
    · exact h ▸ (le_foldl_max xs x).2 j hj

/-- A record found by conversation id makes the Python membership test
`conversation_id in map_metadata_df.values` true. -/
theorem inValues_of_find {records : List IndexedRecord} {cid : String}
    {prev : IndexedRecord}
    (h : records.find? (fun r => r.conversation_id == cid) = some prev) :
    inValues records cid = true := by
  have hmem : prev ∈ records := List.mem_of_find?_eq_some h
  have hp := List.find?_some h
  simp only at hp
  refine List.any_eq_true.mpr ⟨prev, hmem, ?_⟩
  refine List.any_eq_true.mpr ⟨prev.conversation_id, ?_, hp⟩
  simp [recValues]

/-! ### The two paths of the merge engine, in closed form -/

/-- The UPDATE path in closed form: when the conversation id is located,
the prior embedding lookup, the transcript parse and the append all
succeed, `logStep` produces exactly the merged record of lines 126–135,
deleting the prior row. -/
theorem logStep_update_eq (course now : String) (conv : Conversation)
    (snap : Snapshot) (embed : String → Emb) (prev : IndexedRecord)
    (emb : Emb) (fq nc : String)
    (hfind : snap.records.find? (fun r => r.conversation_id == conv.id) = some prev)
    (hemb : pyGet snap.embeddings
      ((snap.records.findIdx (fun r => r.conversation_id == conv.id) : Int) - 1) = some emb)
    (hparse : parse_first_query prev.conversation = some fq)
    (happ : appendMessages prev.conversation (lastTwo conv.messages) = some nc) :
    logStep course conv snap embed now =
      StepResult.updated
        { course := course
          conversation := nc
          conversation_id := conv.id
          id := (last_id snap).map (fun k => k + 1)
          user_email := conv.user_email
          first_query := Content.str fq
          created_at := prev.created_at
          modified_at := now }
        emb prev.id := by
  have hin := inValues_of_find hfind
  simp only [logStep, hin, if_true, hfind, hemb, hparse, happ]

/-- The INSERT path in closed form: when the conversation id is not
present among the frame's cells and the formatting succeeds, `logStep`
produces exactly the fresh record of lines 164–173, with the embedding
freshly requested for the resolved first message. -/
theorem logStep_insert_eq (course now : String) (conv : Conversation)
    (snap : Snapshot) (embed : String → Emb) (m0 : Message)
    (ms : List Message) (t0 cs : String)
    (hnot : inValues snap.records conv.id = false)
    (hmsgs : conv.messages = m0 :: ms)
    (ht0 : m0.content.text? = some t0)
    (happ : appendMessages "" conv.messages = some cs) :
    logStep course conv snap embed now =
      StepResult.inserted
        { course := course
          conversation := cs
          conversation_id := conv.id
          id := (last_id snap).map (fun k => k + 1)
          user_email := conv.user_email
          first_query := Content.str t0
          created_at := now
          modified_at := now }
        (embed t0) := by
  simp only [logStep, hnot, Bool.false_eq_true, if_false, hmsgs]
  rw [hmsgs] at happ
  simp only [ht0, happ]

/-! ### Helper lemmas about the Python split functions -/

/-- `split` never returns an empty list of segments. -/
theorem splitNl_ne_nil (l : List Char) : splitNl l ≠ [] := by
  cases l with
  | nil => simp [splitNl]
  | cons c rest =>
    simp only [splitNl]
    by_cases hc : c = '\n'
    · simp [hc]
    · simp only [hc, if_false]
      cases splitNl rest <;> simp

/-- `split` never returns an empty list of segments. -/
theorem splitColonSp_ne_nil (l : List Char) : splitColonSp l ≠ [] := by
  match l with
  | [] => simp [splitColonSp]
  | [c] => simp [splitColonSp]
  | c1 :: c2 :: rest =>
    simp only [splitColonSp]
    by_cases hc : c1 = ':' ∧ c2 = ' '
    · simp [hc]
    · simp only [hc, if_false]
      cases splitColonSp (c2 :: rest) <;> simp

/-- Splitting a string that starts with the separator yields a leading
empty segment. -/
theorem splitNl_cons_nl (l : List Char) :
    splitNl ('\n' :: l) = [] :: splitNl l := by
  simp [splitNl]

/-- Splitting after a separator-free prefix prepends that prefix to the
first segment of the remainder's split. -/
theorem splitNl_headSeg (p : List Char) (l : List Char)
    (hp : '\n' ∉ p) :
    splitNl (p ++ l) = (p ++ (splitNl l).headI) :: (splitNl l).tail := by
  induction p with
  | nil =>
    cases h : splitNl l with
    | nil => exact absurd h (splitNl_ne_nil l)
    | cons a t => simp [h]
  | cons c p ih =>
    have hc : c ≠ '\n' := fun h => hp (h ▸ List.mem_cons_self c p)
    have hp' : '\n' ∉ p := fun h => hp (List.mem_cons_of_mem c h)
    have h2 := ih hp'
    simp only [List.cons_append, splitNl, hc, if_false]
    rw [List.append_eq, h2]

/-- Splitting after a colon-free prefix followed by an explicit `": "`
separator yields the prefix and then the split of the remainder. -/
theorem splitColonSp_headSeg (p : List Char) (q : List Char)
    (hp : ':' ∉ p) :
    splitColonSp (p ++ ':' :: ' ' :: q) = p :: splitColonSp q := by
  induction p with
  | nil => simp [splitColonSp]
  | cons c p ih =>
    have hc : c ≠ ':' := fun h => hp (h ▸ List.mem_cons_self c p)
    have hp' : ':' ∉ p := fun h => hp (List.mem_cons_of_mem c h)
    cases p with
    | nil =>
      simp only [List.nil_append, List.cons_append, splitColonSp, hc,
        false_and, if_false]
      simp [splitColonSp]
    | cons c2 p2 =>
      have := ih hp'
      simp only [List.cons_append] at this ⊢
      simp only [splitColonSp, hc, false_and, if_false, this]

/-- When the separator occurs in `l`, the first segment is at least two
characters shorter than `l`. -/
theorem splitColonSp_head_len (l : List Char) (h : hasColonSp l = true) :
    ((splitColonSp l).headI).length + 2 ≤ l.length := by
  induction l with
  | nil => simp [hasColonSp] at h
  | cons c1 l1 ih =>
    cases l1 with
    | nil => simp [hasColonSp] at h
    | cons c2 rest =>
      by_cases hc : c1 = ':' ∧ c2 = ' '
      · simp [splitColonSp, hc, List.length_cons]
      · simp only [hasColonSp, hc, if_false] at h
        have hlen := ih h
        simp only [splitColonSp, hc, if_false]
        cases hs : splitColonSp (c2 :: rest) with
        | nil => exact absurd hs (splitColonSp_ne_nil _)
        | cons a t =>
          rw [hs] at hlen
          simp only [List.headI] at hlen ⊢
          simp only [List.length_cons] at hlen ⊢
          omega

/-- Every character of the first segment of `splitColonSp l` is a
character of `l`. -/
theorem splitColonSp_head_sub (l : List Char) :
    ∀ c ∈ (splitColonSp l).headI, c ∈ l := by
  induction l with
  | nil => simp [splitColonSp]
  | cons c1 l1 ih =>
    cases l1 with
    | nil => simp [splitColonSp]
    | cons c2 rest =>
      by_cases hc : c1 = ':' ∧ c2 = ' '
      · simp [splitColonSp, hc]
      · simp only [splitColonSp, hc, if_false]
        cases hs : splitColonSp (c2 :: rest) with
        | nil => exact absurd hs (splitColonSp_ne_nil _)
        | cons a t =>
          intro c hcm
          simp only [List.headI] at hcm
          rcases List.mem_cons.mp hcm with rfl | hcm
          · exact List.mem_cons_self c _
          · have := ih c (by rw [hs]; simpa using hcm)
            exact List.mem_cons_of_mem c1 this

/-- First-occurrence decomposition at a newline. -/
theorem exists_nl_decomp (l : List Char) (h : '\n' ∈ l) :
    ∃ a b, l = a ++ '\n' :: b ∧ '\n' ∉ a := by
  induction l with
  | nil => simp at h
  | cons c rest ih =>
    by_cases hc : c = '\n'
    · exact ⟨[], rest, by simp [hc], by simp⟩
    · have hr : '\n' ∈ rest := by
        rcases List.mem_cons.mp h with h1 | h1
        · exact absurd h1.symm hc
        · exact h1
      obtain ⟨a, b, hab, hna⟩ := ih hr
      exact ⟨c :: a, b, by simp [hab], by
        intro hm
        rcases List.mem_cons.mp hm with h2 | h2
        · exact hc h2.symm
        · exact hna h2⟩

/-- `parse_first_query` on a transcript whose second line is a
separator-free prefix, the `": "` separator, then a newline-free text:
it returns the text's first `": "`-segment. -/
theorem parse_first_query_shape (pre t0 rest : List Char)
    (hpn : '\n' ∉ pre) (hpc : ':' ∉ pre) (htn : '\n' ∉ t0) :
    parse_first_query
        (String.mk ('\n' :: (pre ++ (':' :: ' ' :: (t0 ++ '\n' :: rest))))) =
      some (String.mk ((splitColonSp t0).headI)) := by
  have hL : '\n' :: (pre ++ (':' :: ' ' :: (t0 ++ '\n' :: rest))) =
      '\n' :: ((pre ++ ':' :: ' ' :: t0) ++ ('\n' :: rest)) := by
    simp [List.append_assoc]
  have hpN : '\n' ∉ pre ++ ':' :: ' ' :: t0 := by
    intro h
    rcases List.mem_append.mp h with h | h
    · exact hpn h
    · rcases List.mem_cons.mp h with h | h
      · exact absurd h (by decide)
      · rcases List.mem_cons.mp h with h | h
        · exact absurd h (by decide)
        · exact htn h
  have hs : splitNl ('\n' :: ((pre ++ ':' :: ' ' :: t0) ++ ('\n' :: rest))) =
      [] :: (pre ++ ':' :: ' ' :: t0) :: splitNl rest := by
    rw [splitNl_cons_nl, splitNl_headSeg _ _ hpN, splitNl_cons_nl]
    simp
  rw [hL]
  unfold parse_first_query
  rw [show (String.mk ('\n' :: ((pre ++ ':' :: ' ' :: t0) ++ ('\n' :: rest)))).data =
      '\n' :: ((pre ++ ':' :: ' ' :: t0) ++ ('\n' :: rest)) from rfl]
  rw [hs]
  simp only [List.getElem?_cons_succ, List.getElem?_cons_zero]
  rw [splitColonSp_headSeg pre t0 hpc]
  cases hsp : splitColonSp t0 with
  | nil => exact absurd hsp (splitColonSp_ne_nil t0)
  | cons h t => simp

/-- `parse_first_query` on a transcript block `": " ++ t0 ++ "\n" ++ …`
succeeds, and whenever the original text `t0` contains `": "` or a
newline, the parsed result differs from `t0`. -/
theorem parse_block (pre : List Char) (t0 : String) (R : List Char)
    (hpn : '\n' ∉ pre) (hpc : ':' ∉ pre) :
    ∃ d : String,
      parse_first_query
          (String.mk ('\n' :: (pre ++ (':' :: ' ' :: (t0.data ++ '\n' :: R))))) =
        some d ∧
      ((hasColonSp t0.data = true ∨ '\n' ∈ t0.data) → d ≠ t0) := by
  by_cases hn : '\n' ∈ t0.data
  · obtain ⟨a, b, hab, hna⟩ := exists_nl_decomp _ hn
    have harg : t0.data ++ '\n' :: R = a ++ '\n' :: (b ++ '\n' :: R) := by
      rw [hab]; simp [List.append_assoc]
    refine ⟨String.mk ((splitColonSp a).headI), ?_, ?_⟩
    · rw [harg]
      exact parse_first_query_shape pre a (b ++ '\n' :: R) hpn hpc hna
    · intro _ hEq
      have hd : (splitColonSp a).headI = t0.data := congrArg String.data hEq
      have h2 : '\n' ∈ a := splitColonSp_head_sub a '\n' (by rw [hd]; exact hn)
      exact hna h2
  · refine ⟨String.mk ((splitColonSp t0.data).headI), ?_, ?_⟩
    · exact parse_first_query_shape pre t0.data R hpn hpc hn
    · intro hcase
      rcases hcase with hc | hc
      · intro hEq
        have hd : (splitColonSp t0.data).headI = t0.data :=
          congrArg String.data hEq
        have hlen := splitColonSp_head_len t0.data hc
        rw [hd] at hlen
        omega
      · exact absurd hc hn

/-! ### Helper lemmas about the bootstrap loop -/

/-- The per-row loop of `create_nomic_map` on well-formed inputs:
it never raises, produces one record per historical row, assigns the
sequential ids `i, i+1, …`, keeps each row's conversation id, and its
`conversation_exists` flag is exactly "some row's id matches the
triggering conversation's id". -/
theorem bootstrapRows_spec (logConv : Conversation) (now : String)
    (hlog : ∀ m ∈ logConv.messages, (m.content.text?).isSome = true) :
    ∀ (rows : List HistRow) (i : Nat),
      (∀ r ∈ rows, HistRowWf r) →
      ∃ recs qs,
        bootstrapRows logConv now rows i =
          some (recs, qs, rows.any (fun r => r.convo_id == logConv.id)) ∧
        recs.length = rows.length ∧
        recs.map (fun r => r.id) = (seqIds i rows.length).map some ∧
        recs.map (fun r => r.conversation_id) = rows.map (fun r => r.convo_id) := by
  intro rows
  induction rows with
  | nil =>
    intro i _
    exact ⟨[], [], by simp [bootstrapRows, seqIds], by simp, by simp [seqIds], by simp⟩
  | cons row rest ih =>
    intro i hwf
    have hrowwf := hwf row (by simp)
    obtain ⟨hne, hall⟩ := hrowwf
    cases hm : row.messages with
    | nil => exact absurd hm hne
    | cons m0 ms =>
      have hm0 : (m0.content.text?).isSome = true := by
        refine hall m0 ?_
        rw [hm]; simp
      cases ht0 : m0.content.text? with
      | none => rw [ht0] at hm0; simp at hm0
      | some fm =>
        have happ0 : (appendMessages "" row.messages).isSome = true :=
          appendMessages_isSome row.messages hall ""
        cases happ : appendMessages "" row.messages with
        | none => rw [happ] at happ0; simp at happ0
        | some convoStr =>
          obtain ⟨recs, qs, hrec, hlen, hids, hcids⟩ :=
            ih (i + 1) (fun r hr => hwf r (by simp [hr]))
          by_cases hid : row.convo_id = logConv.id
          · have happ2 : (appendMessages convoStr logConv.messages).isSome = true :=
              appendMessages_isSome logConv.messages hlog convoStr
            cases happ2e : appendMessages convoStr logConv.messages with
            | none => rw [happ2e] at happ2; simp at happ2
            | some convoStr2 =>
              refine ⟨{ course := row.course_name, conversation := convoStr2,
                        conversation_id := row.convo_id, id := some i,
                        user_email := row.user_email,
                        first_query := Content.str fm,
                        created_at := row.created_at,
                        modified_at := now } :: recs,
                      Content.str fm :: qs, ?_, ?_, ?_, ?_⟩
              · simp [hm] at happ
                simp [bootstrapRows, hm, ht0, hid, happ, happ2e, hrec,
                  List.any_cons]
              · simp [hlen]
              · simp [seqIds, hids]
              · simp [hcids]
          · refine ⟨{ course := row.course_name, conversation := convoStr,
                      conversation_id := row.convo_id, id := some i,
                      user_email := row.user_email,
                      first_query := Content.str fm,
                      created_at := row.created_at,
                      modified_at := now } :: recs,
                    Content.str fm :: qs, ?_, ?_, ?_, ?_⟩
            · simp [hm] at happ
              simp [bootstrapRows, hm, ht0, hid, happ, hrec, List.any_cons]
            · simp [hlen]
            · simp [seqIds, hids]
            · simp [hcids]

/-! ### Helper lemmas about the retry controller -/

/-- A lock-contention message is not the not-configured message. -/
theorem lock_ne_config {s : String} (h : LOCK_EXCEPTIONS.contains s = true) :
    s ≠ notConfigMsg := by
  intro heq
  rw [heq] at h
  exact absurd h (by decide)

/-- As long as the environment never raises a malformed (pre-`try`)
exception, the retry loop always terminates in a normal return. -/
theorem runFrom_no_raise (course : String) (beh : Nat → StoreResp)
    (hshape : ∀ n p, beh n ≠ StoreResp.preErr p) :
    ∀ tLeft n tr, ∃ v tr2,
      runFrom course beh n tLeft tr = (SyncOutcome.returned v, tr2) := by
  intro tLeft
  induction tLeft with
  | zero => intro n tr; exact ⟨none, tr, rfl⟩
  | succ t ih =>
    intro n tr
    cases hb : beh n with
    | success =>
      refine ⟨some ("Successfully logged for " ++ course),
        { tr with attempts := tr.attempts + 1 }, ?_⟩
      simp [runFrom, attemptOut, hb]
    | errMsg s =>
      by_cases hcfg : s = notConfigMsg
      · refine ⟨none,
          { tr with attempts := tr.attempts + 1
                    bootstrapCalls := tr.bootstrapCalls + 1 }, ?_⟩
        simp [runFrom, attemptOut, hb, hcfg]
      · by_cases hlock : LOCK_EXCEPTIONS.contains s
        · have hmem : s ∈ LOCK_EXCEPTIONS := by simpa using hlock
          by_cases ht : t = 0
          · refine ⟨none, { tr with attempts := tr.attempts + 1 }, ?_⟩
            simp [runFrom, attemptOut, hb, hcfg, giveup_hdlr, dictLookup,
              hmem, ht]
          · obtain ⟨v, tr2, hrec⟩ := ih (n + 1)
              { tr with
                attempts := tr.attempts + 1
                delays := tr.delays ++ [expoWait n] }
            refine ⟨v, tr2, ?_⟩
            rw [← hrec]
            simp [runFrom, attemptOut, hb, hcfg, giveup_hdlr, dictLookup,
              hmem, ht]
        · have hmem : s ∉ LOCK_EXCEPTIONS := by simpa using hlock
          refine ⟨none,
            { tr with attempts := tr.attempts + 1
                      sentryReports := tr.sentryReports ++ [s] }, ?_⟩
          simp [runFrom, attemptOut, hb, hcfg, giveup_hdlr, dictLookup,
            hmem]
    | preErr p => exact absurd hb (hshape n p)

/-! ### Claims C5, C6, C7: the retry/backoff controller -/

/-- C5 (counterexample).  The claim says `sync_conversation` returns a
status string for every input and never raises.  Both parts fail: a
permanent unclassified failure makes the decorated function give up and
(because `raise_on_giveup=False`) return Python `None`, which is not a
status string; and a malformed payload (e.g. a `KeyError` raised by
`conversation['conversation']` before the `try` block) makes
`giveup_hdlr` itself raise a `TypeError` that escapes to the caller. -/
theorem C5_cex :
    (¬ ∃ s, (log_convo_to_nomic "CS" behBoom).1 =
        SyncOutcome.returned (some s)) ∧
    (log_convo_to_nomic "CS" behPreKey).1 = SyncOutcome.raised "TypeError" := by
  constructor
  · intro h
    obtain ⟨s, hs⟩ := h
    rw [show (log_convo_to_nomic "CS" behBoom).1 = SyncOutcome.returned none
      from rfl] at hs
    simp at hs
  · rfl

/-- C5 (amended).  Whenever every failing attempt carries the standard
single-dict exception payload (as every exception escaping the `try`
block does, re-raised as `Exception({"exception": str(e)})`), the
decorated function never raises: it returns a status string on success
and Python `None` otherwise.  A permanent failure other than the
not-configured kind is reported to the error-tracking channel and
degrades to a `None` return rather than an exception. -/
theorem C5_amended (course : String) (beh : Nat → StoreResp)
    (hshape : ∀ n p, beh n ≠ StoreResp.preErr p) :
    (∃ v tr, log_convo_to_nomic course beh = (SyncOutcome.returned v, tr)) ∧
    (∀ s, beh 0 = StoreResp.errMsg s → LOCK_EXCEPTIONS.contains s = false →
      s ≠ notConfigMsg →
      log_convo_to_nomic course beh =
        (SyncOutcome.returned none,
         { attempts := 1, bootstrapCalls := 0,
           sentryReports := [s], delays := [] })) := by
  constructor
  · exact runFrom_no_raise course beh hshape 5 0 _
  · intro s hb hlock hcfg
    have hmem : s ∉ LOCK_EXCEPTIONS := by
      intro hm
      have hm2 : LOCK_EXCEPTIONS.contains s = true := by simpa using hm
      rw [hlock] at hm2
      exact Bool.false_ne_true hm2
    simp [log_convo_to_nomic, runFrom, attemptOut, hb, hcfg, giveup_hdlr,
      dictLookup, hmem]

/-- C5 (witness for the amended theorem), at the environment that fails
permanently with message `"boom"` on the first attempt. -/
theorem C5_witness :
    (∃ v tr, log_convo_to_nomic "CS" behBoom = (SyncOutcome.returned v, tr)) ∧
    (∀ s, behBoom 0 = StoreResp.errMsg s → LOCK_EXCEPTIONS.contains s = false →
      s ≠ notConfigMsg →
      log_convo_to_nomic "CS" behBoom =
        (SyncOutcome.returned none,
         { attempts := 1, bootstrapCalls := 0,
           sentryReports := [s], delays := [] })) :=
  C5_amended "CS" behBoom (fun _ p h => by simp [behBoom] at h)

/-- C6 (counterexample).  The claim says exhausted retries are reported
to the operator-facing error channel.  They are not: with lock
contention on all five attempts the loop gives up silently — no sentry
report is ever made (the `sentry_sdk.capture_exception` call sits only
in the non-lock branch of `giveup_hdlr`) — and `None` is returned. -/
theorem C6_cex :
    (log_convo_to_nomic "CS" behAllLock).2.attempts = 5 ∧
    (log_convo_to_nomic "CS" behAllLock).2.sentryReports = [] ∧
    (log_convo_to_nomic "CS" behAllLock).1 = SyncOutcome.returned none :=
  ⟨rfl, rfl, rfl⟩

/-- C6 (amended).  Transient lock/indexing failures retry the whole
attempt with strictly increasing exponential backoff waits
(`1.5 * 10 ^ n`), up to five attempts; if all five attempts hit
transient failures, no exception reaches the caller and `None` is
returned, but the failure is *not* reported to the error channel.  With
transient failures on the first two attempts and success on the third,
the call succeeds after exactly three attempts with strictly increasing
waits. -/
theorem C6_amended :
    (∀ (course : String) (beh : Nat → StoreResp),
      (∀ n, n < 5 → ∃ s, beh n = StoreResp.errMsg s ∧
        LOCK_EXCEPTIONS.contains s = true) →
      log_convo_to_nomic course beh =
        (SyncOutcome.returned none,
         { attempts := 5, bootstrapCalls := 0, sentryReports := [],
           delays := [expoWait 0, expoWait 1, expoWait 2, expoWait 3] }) ∧
      List.Chain' (fun a b => a < b)
        [expoWait 0, expoWait 1, expoWait 2, expoWait 3]) ∧
    (∀ (course : String) (beh : Nat → StoreResp) (s0 s1 : String),
      beh 0 = StoreResp.errMsg s0 → LOCK_EXCEPTIONS.contains s0 = true →
      beh 1 = StoreResp.errMsg s1 → LOCK_EXCEPTIONS.contains s1 = true →
      beh 2 = StoreResp.success →
      log_convo_to_nomic course beh =
        (SyncOutcome.returned (some ("Successfully logged for " ++ course)),
         { attempts := 3, bootstrapCalls := 0, sentryReports := [],
           delays := [expoWait 0, expoWait 1] }) ∧
      List.Chain' (fun a b => a < b) [expoWait 0, expoWait 1]) := by
  constructor
  · intro course beh h
    obtain ⟨s0, hb0, hl0⟩ := h 0 (by norm_num)
    obtain ⟨s1, hb1, hl1⟩ := h 1 (by norm_num)
    obtain ⟨s2, hb2, hl2⟩ := h 2 (by norm_num)
    obtain ⟨s3, hb3, hl3⟩ := h 3 (by norm_num)
    obtain ⟨s4, hb4, hl4⟩ := h 4 (by norm_num)
    refine ⟨?_, by norm_num [List.chain'_cons, List.chain'_singleton, expoWait]⟩
    have hm0 : s0 ∈ LOCK_EXCEPTIONS := by simpa using hl0
    have hm1 : s1 ∈ LOCK_EXCEPTIONS := by simpa using hl1
    have hm2 : s2 ∈ LOCK_EXCEPTIONS := by simpa using hl2
    have hm3 : s3 ∈ LOCK_EXCEPTIONS := by simpa using hl3
    have hm4 : s4 ∈ LOCK_EXCEPTIONS := by simpa using hl4
    simp [log_convo_to_nomic, runFrom, attemptOut, giveup_hdlr, dictLookup,
      hb0, hb1, hb2, hb3, hb4, hm0, hm1, hm2, hm3, hm4,
      lock_ne_config hl0, lock_ne_config hl1, lock_ne_config hl2,
      lock_ne_config hl3, lock_ne_config hl4]
  · intro course beh s0 s1 hb0 hl0 hb1 hl1 hb2
    have hm0 : s0 ∈ LOCK_EXCEPTIONS := by simpa using hl0
    have hm1 : s1 ∈ LOCK_EXCEPTIONS := by simpa using hl1
    refine ⟨?_, by norm_num [List.chain'_cons, List.chain'_singleton, expoWait]⟩
    simp [log_convo_to_nomic, runFrom, attemptOut, giveup_hdlr, dictLookup,
      hb0, hb1, hb2, hm0, hm1, lock_ne_config hl0, lock_ne_config hl1]

/-- C6 (witness for the amended theorem), at the always-locked
environment and at the locked-twice-then-success environment. -/
theorem C6_witness :
    (log_convo_to_nomic "CS" behAllLock =
      (SyncOutcome.returned none,
       { attempts := 5, bootstrapCalls := 0, sentryReports := [],
         delays := [expoWait 0, expoWait 1, expoWait 2, expoWait 3] }) ∧
     List.Chain' (fun a b => a < b)
       [expoWait 0, expoWait 1, expoWait 2, expoWait 3]) ∧
    (log_convo_to_nomic "CS" behTr =
      (SyncOutcome.returned (some ("Successfully logged for " ++ "CS")),
       { attempts := 3, bootstrapCalls := 0, sentryReports := [],
         delays := [expoWait 0, expoWait 1] }) ∧
     List.Chain' (fun a b => a < b) [expoWait 0, expoWait 1]) :=
  ⟨C6_amended.1 "CS" behAllLock
      (fun n _ => ⟨_, rfl, by decide⟩),
   C6_amended.2 "CS" behTr _ _ rfl (by decide) rfl (by decide) rfl⟩

/-- C7.  When the remote store reports the not-configured condition,
the attempt's exception handler calls `create_nomic_map` exactly once
and the decorated function then returns normally: exactly one attempt
is made (the incremental path is not retried), nothing is raised,
nothing is reported to the error channel. -/
theorem C7_theorem (course : String) (beh : Nat → StoreResp)
    (h0 : beh 0 = StoreResp.errMsg notConfigMsg) :
    log_convo_to_nomic course beh =
      (SyncOutcome.returned none,
       { attempts := 1, bootstrapCalls := 1, sentryReports := [],
         delays := [] }) := by
  simp [log_convo_to_nomic, runFrom, attemptOut, h0]

/-- C7 (witness), at the environment that always reports
not-configured. -/
theorem C7_witness :
    log_convo_to_nomic "CS" behNC =
      (SyncOutcome.returned none,
       { attempts := 1, bootstrapCalls := 1, sentryReports := [],
         delays := [] }) :=
  C7_theorem "CS" behNC rfl

/-! ### Claims C1–C4: the record merge engine -/

/-- C1 (counterexample).  The claim says UPDATE preserves the prior
record's `row_id`.  It does not: updating conversation `c1`, whose
stored row has id 1, produces a record with id `last_id + 1 = 2` (the
prior row is deleted and a new row is inserted under a fresh id), even
though `created_at` is indeed preserved. -/
theorem C1_cex :
    (logStep "CS" conv1 snapC1 embT "2023-02-02 00:00:00").rec?.bind
        (fun r => r.id) = some 2 ∧
    R1.id = some 1 ∧
    (logStep "CS" conv1 snapC1 embT "2023-02-02 00:00:00").rec?.bind
        (fun r => r.id) ≠ R1.id ∧
    (logStep "CS" conv1 snapC1 embT "2023-02-02 00:00:00").rec?.map
        (fun r => r.created_at) = some R1.created_at := by
  decide

/-- C1 (amended).  For every UPDATE of a conversation that already has
a record, the produced record preserves the prior `created_at`, sets
`modified_at = now`, appends onto the prior transcript and carries an
embedding forward — but it is assigned a fresh `row_id`
`max existing id + 1`, and the prior row (under its old id) is
deleted. -/
theorem C1_amended (course now : String) (conv : Conversation)
    (snap : Snapshot) (embed : String → Emb) (prev : IndexedRecord)
    (emb : Emb) (fq nc : String) (k : Nat)
    (hfind : snap.records.find?
      (fun r => r.conversation_id == conv.id) = some prev)
    (hemb : pyGet snap.embeddings
      ((snap.records.findIdx (fun r => r.conversation_id == conv.id) : Int)
        - 1) = some emb)
    (hparse : parse_first_query prev.conversation = some fq)
    (happ : appendMessages prev.conversation (lastTwo conv.messages) = some nc)
    (hmax : last_id snap = some k) :
    ∃ rec : IndexedRecord,
      logStep course conv snap embed now = StepResult.updated rec emb prev.id ∧
      rec.created_at = prev.created_at ∧
      rec.modified_at = now ∧
      rec.id = some (k + 1) ∧
      rec.conversation = nc ∧
      rec.conversation_id = conv.id := by
  refine ⟨_, logStep_update_eq course now conv snap embed prev emb fq nc
    hfind hemb hparse happ, rfl, rfl, ?_, rfl, rfl⟩
  simp [hmax]

/-- C1 (witness for the amended theorem), updating `c1` in the
one-record snapshot. -/
theorem C1_witness :
    ∃ rec : IndexedRecord,
      logStep "CS" conv1 snapC1 embT "2023-02-02 00:00:00" =
        StepResult.updated rec [5] R1.id ∧
      rec.created_at = R1.created_at ∧
      rec.modified_at = "2023-02-02 00:00:00" ∧
      rec.id = some (1 + 1) ∧
      rec.conversation = "\n>>> 🙋 user: hi\n" ++ "\n>>> 🙋 user: again\n" ∧
      rec.conversation_id = conv1.id :=
  C1_amended "CS" "2023-02-02 00:00:00" conv1 snapC1 embT R1 [5] "hi"
    ("\n>>> 🙋 user: hi\n" ++ "\n>>> 🙋 user: again\n") 1
    (by decide) (by decide) (by decide) (by decide) (by decide)

/-- C2 (code bug evidence).  The UPDATE path reuses
`map_embeddings_df[prev_index - 1]`, with `prev_index` the 0-based
frame position of the located row.  Updating conversation `c2`, stored
at position 1 with embedding `[2]`, re-adds the point with embedding
`[1]` — the embedding of the *other* row at position 0.  No new
embedding is requested (the result embedding does not come from the
embedding service), but the vector carried forward is not the
conversation's own stored vector, contradicting the claim's (and the
code's) carry-forward intent. -/
theorem C2_evidence :
    (logStep "CS" conv2 snapC2 embT "2023-02-02 00:00:00").emb? = some [1] ∧
    snapC2.embeddings[1]? = some [2] ∧
    snapC2.records.findIdx (fun r => r.conversation_id == conv2.id) = 1 ∧
    ([1] : Emb) ≠ [2] := by
  decide

/-- C3.  For every UPDATE of an existing conversation, the new
transcript is exactly the previously stored transcript with the
formatted blocks of only the newest two messages appended (so prior
content is a prefix, nothing is discarded or rewritten, and repeated
messages are appended again rather than deduplicated); when the
message list is shorter than two, `messages[-2:]` is the whole list and
no error is raised. -/
theorem C3_theorem (course now : String) (conv : Conversation)
    (snap : Snapshot) (embed : String → Emb) (prev : IndexedRecord)
    (emb : Emb) (fq s : String)
    (hfind : snap.records.find?
      (fun r => r.conversation_id == conv.id) = some prev)
    (hemb : pyGet snap.embeddings
      ((snap.records.findIdx (fun r => r.conversation_id == conv.id) : Int)
        - 1) = some emb)
    (hparse : parse_first_query prev.conversation = some fq)
    (hs : appendMessages "" (lastTwo conv.messages) = some s) :
    (∃ rec : IndexedRecord,
      logStep course conv snap embed now = StepResult.updated rec emb prev.id ∧
      rec.conversation = prev.conversation ++ s) ∧
    (conv.messages.length < 2 → lastTwo conv.messages = conv.messages) := by
  constructor
  · have happ : appendMessages prev.conversation (lastTwo conv.messages) =
        some (prev.conversation ++ s) := by
      rw [appendMessages_acc, hs]
      rfl
    exact ⟨_, logStep_update_eq course now conv snap embed prev emb fq
      (prev.conversation ++ s) hfind hemb hparse happ, rfl⟩
  · intro hlt
    unfold lastTwo
    have h0 : conv.messages.length - 2 = 0 := by omega
    rw [h0, List.drop_zero]

/-- C3 (witness), updating `c1` with a single-message tail (also
exercising the shorter-than-two edge case). -/
theorem C3_witness :
    (∃ rec : IndexedRecord,
      logStep "CS" conv1 snapC1 embT "2023-02-02 00:00:00" =
        StepResult.updated rec [5] R1.id ∧
      rec.conversation = R1.conversation ++ "\n>>> 🙋 user: again\n") ∧
    (conv1.messages.length < 2 → lastTwo conv1.messages = conv1.messages) :=
  C3_theorem "CS" "2023-02-02 00:00:00" conv1 snapC1 embT R1 [5] "hi"
    "\n>>> 🙋 user: again\n" (by decide) (by decide) (by decide) (by decide)

/-- C4 (counterexample).  The claim says INSERT into an empty course
index produces `row_id = 1`.  It does not: `df['id'].max()` on an empty
frame is NaN, `last_id + 1` stays NaN, and the inserted record carries
no numeric row id at all (modelled `none`), not 1. -/
theorem C4_cex :
    (logStep "CS" convNew { records := [], embeddings := [] } embT
        "2023-02-02 00:00:00").rec?.bind (fun r => r.id) = none ∧
    ((logStep "CS" convNew { records := [], embeddings := [] } embT
        "2023-02-02 00:00:00").rec?).isSome = true := by
  decide

/-- C4 (amended).  On INSERT into a non-empty index whose maximum
existing `row_id` is `k`, the inserted record receives
`row_id = k + 1`, which is strictly greater than every existing row id
(so row ids remain unique and strictly increasing); on an empty index
the id computation propagates NaN and no numeric id (in particular not
1) is assigned. -/
theorem C4_amended (course now : String) (conv : Conversation)
    (snap : Snapshot) (embed : String → Emb) (m0 : Message)
    (ms : List Message) (t0 cs : String) (k : Nat)
    (hnot : inValues snap.records conv.id = false)
    (hmsgs : conv.messages = m0 :: ms)
    (ht0 : m0.content.text? = some t0)
    (happ : appendMessages "" conv.messages = some cs)
    (hmax : last_id snap = some k) :
    ∃ rec : IndexedRecord,
      logStep course conv snap embed now = StepResult.inserted rec (embed t0) ∧
      rec.id = some (k + 1) ∧
      (∀ r ∈ snap.records, ∀ j, r.id = some j → j < k + 1) := by
  refine ⟨_, logStep_insert_eq course now conv snap embed m0 ms t0 cs
    hnot hmsgs ht0 happ, ?_, ?_⟩
  · simp [hmax]
  · intro r hr j hj
    have hjmem : j ∈ snap.records.filterMap (fun rr => rr.id) :=
      List.mem_filterMap.mpr ⟨r, hr, hj⟩
    have hle := maxId_le (by simpa [last_id] using hmax) j hjmem
    omega

/-- C4 (witness for the amended theorem), inserting a new conversation
into the two-record snapshot with maximum id 2. -/
theorem C4_witness :
    ∃ rec : IndexedRecord,
      logStep "CS" convNew snapC2 embT "2023-02-02 00:00:00" =
        StepResult.inserted rec (embT "hey") ∧
      rec.id = some (2 + 1) ∧
      (∀ r ∈ snapC2.records, ∀ j, r.id = some j → j < 2 + 1) :=
  C4_amended "CS" "2023-02-02 00:00:00" convNew snapC2 embT (mU "hey")
    [mA "ho"]
    "hey" "\n>>> 🙋 user: hey\n\n>>> 🤖 assistant: ho\n" 2
    (by decide) (by decide) (by decide) (by decide) (by decide)

/-! ### Claims C8, C9: the index bootstrap policy -/

/-- Sequential ids grow by appending the next id. -/
theorem seqIds_snoc (n : Nat) : ∀ i : Nat, seqIds i (n + 1) = seqIds i n ++ [i + n] := by
  induction n with
  | zero => intro i; simp [seqIds]
  | succ n ih =>
    intro i
    rw [show seqIds i (n + 1 + 1) = i :: seqIds (i + 1) (n + 1) from rfl, ih (i + 1)]
    simp [seqIds, Nat.add_assoc, Nat.add_comm, Nat.add_left_comm]

/-- C8.  Bootstrap with fewer than 19 historical rows returns `None`
(Deferred); with exactly 19 well-formed rows it returns a bulk index of
exactly 19 records when the triggering conversation id matches a
historical row and exactly 20 when it does not, with sequential row ids
1, 2, … assigned in historical order. -/
theorem C8_theorem :
    (∀ (course : String) (rows : List HistRow) (logConv : Conversation)
        (now : String), rows.length < 19 →
      create_nomic_map course rows logConv now = BootstrapOut.deferred) ∧
    (∀ (course : String) (rows : List HistRow) (logConv : Conversation)
        (now : String), rows.length = 19 →
      (∀ r ∈ rows, HistRowWf r) → ConversationWf logConv →
      ∃ recs qs,
        create_nomic_map course rows logConv now = BootstrapOut.bulk recs qs ∧
        recs.length =
          (if rows.any (fun r => r.convo_id == logConv.id) then 19 else 20) ∧
        recs.map (fun r => r.id) = (seqIds 1 recs.length).map some) := by
  constructor
  · intro course rows logConv now hlen
    simp [create_nomic_map, hlen]
  · intro course rows logConv now hlen hwf hcwf
    obtain ⟨hne, hall⟩ := hcwf
    obtain ⟨recs, qs, hboot, hreclen, hids, _⟩ :=
      bootstrapRows_spec logConv now hall rows 1 hwf
    have hnotlt : ¬ rows.length < 19 := by omega
    by_cases hex : rows.any (fun r => r.convo_id == logConv.id)
    · refine ⟨recs, qs, ?_, ?_, ?_⟩
      · simp [create_nomic_map, hnotlt, hboot, hex]
      · simp [hreclen, hlen, hex]
      · rw [hids, hreclen, hlen]
    · cases hm : logConv.messages with
      | nil => exact absurd hm hne
      | cons m0 ms =>
        have happs := appendMessages_isSome logConv.messages hall ""
        cases happ : appendMessages "" logConv.messages with
        | none => rw [happ] at happs; simp at happs
        | some convoStr =>
          rw [hm] at happ
          refine ⟨recs ++
            [({ course := course, conversation := convoStr,
                conversation_id := logConv.id, id := some (rows.length + 1),
                user_email := logConv.user_email, first_query := m0.content,
                created_at := now, modified_at := now } : IndexedRecord)],
            qs ++ [m0.content], ?_, ?_, ?_⟩
          · simp [create_nomic_map, hnotlt, hboot, hex, hm, happ]
          · simp [hreclen, hlen, hex]
          · simp only [List.map_append, hids, List.length_append, hreclen,
              hlen, List.length_singleton, List.map_cons, List.map_nil]
            rw [seqIds_snoc 19 1]
            simp

/-- C8 (witness for both parts): 18 rows defer; 19 non-matching rows
produce a 20-record bulk index with ids 1…20. -/
theorem C8_witness :
    (create_nomic_map "CS" (List.replicate 18 rowH) logNew
        "2023-02-02 00:00:00" = BootstrapOut.deferred) ∧
    (∃ recs qs,
      create_nomic_map "CS" rows19 logNew "2023-02-02 00:00:00" =
        BootstrapOut.bulk recs qs ∧
      recs.length =
        (if rows19.any (fun r => r.convo_id == logNew.id) then 19 else 20) ∧
      recs.map (fun r => r.id) = (seqIds 1 recs.length).map some) :=
  ⟨C8_theorem.1 "CS" (List.replicate 18 rowH) logNew "2023-02-02 00:00:00"
      (by decide),
   C8_theorem.2 "CS" rows19 logNew "2023-02-02 00:00:00" (by decide)
      (by decide) (by decide)⟩

/-- C9 (counterexample).  The claim says the triggering conversation is
merged into the matching historical row by the same append rule the
UPDATE path uses — only its newest two messages.  In fact the bootstrap
loop appends *all* of the triggering conversation's messages: with a
three-message triggering conversation, the merged transcript contains
the blocks of all three messages, not only of the newest two. -/
theorem C9_cex :
    (create_nomic_map "CS" rows9 logC9 "2023-02-02 00:00:00").firstTranscript? =
      some ("\n>>> 🙋 user: hi\n" ++
        "\n>>> 🙋 user: a\n\n>>> 🤖 assistant: b\n\n>>> 🙋 user: c\n") ∧
    (create_nomic_map "CS" rows9 logC9 "2023-02-02 00:00:00").firstTranscript? ≠
      some ("\n>>> 🙋 user: hi\n" ++
        "\n>>> 🤖 assistant: b\n\n>>> 🙋 user: c\n") := by
  constructor
  · rfl
  · decide

/-- C9 (amended).  During bootstrap, when the triggering conversation's
id matches a historical row, the formatted blocks of *all* of its
messages (not only the newest two) are appended onto that row's
transcript — the per-message formatting rule is shared with UPDATE but
the two-message window is not — and no duplicate row is created for
that conversation id: matching rows produce exactly as many records
carrying that id as there are matching historical rows, with no extra
record appended. -/
theorem C9_amended (course now : String) (r0 : HistRow)
    (rest : List HistRow) (logConv : Conversation) (t t2 : String)
    (hlen : (r0 :: rest).length = 19)
    (hwf : ∀ r ∈ r0 :: rest, HistRowWf r)
    (hcwf : ∀ m ∈ logConv.messages, (m.content.text?).isSome = true)
    (hmatch : r0.convo_id = logConv.id)
    (ht : appendMessages "" r0.messages = some t)
    (ht2 : appendMessages t logConv.messages = some t2) :
    ∃ recs qs,
      create_nomic_map course (r0 :: rest) logConv now =
        BootstrapOut.bulk recs qs ∧
      recs.length = 19 ∧
      (recs.map (fun r => r.conversation)).head? = some t2 ∧
      recs.countP (fun r => r.conversation_id == logConv.id) =
        (r0 :: rest).countP (fun r => r.convo_id == logConv.id) := by
  obtain ⟨hne0, hall0⟩ := hwf r0 (by simp)
  cases hm : r0.messages with
  | nil => exact absurd hm hne0
  | cons m0 ms =>
    have hm0 : (m0.content.text?).isSome = true := by
      refine hall0 m0 ?_
      rw [hm]; simp
    cases ht0 : m0.content.text? with
    | none => rw [ht0] at hm0; simp at hm0
    | some fm =>
      obtain ⟨recs', qs', hboot', hlen', _, hcids'⟩ :=
        bootstrapRows_spec logConv now hcwf rest 2
          (fun r hr => hwf r (by simp [hr]))
      rw [hm] at ht
      have hboot : bootstrapRows logConv now (r0 :: rest) 1 =
          some (({ course := r0.course_name, conversation := t2,
                   conversation_id := r0.convo_id, id := some 1,
                   user_email := r0.user_email,
                   first_query := Content.str fm,
                   created_at := r0.created_at,
                   modified_at := now } : IndexedRecord) :: recs',
                Content.str fm :: qs', true) := by
        simp [bootstrapRows, hm, ht0, hmatch, ht, ht2, hboot']
      refine ⟨({ course := r0.course_name, conversation := t2,
                 conversation_id := r0.convo_id, id := some 1,
                 user_email := r0.user_email,
                 first_query := Content.str fm,
                 created_at := r0.created_at,
                 modified_at := now } : IndexedRecord) :: recs',
              Content.str fm :: qs', ?_, ?_, ?_, ?_⟩
      · have hr : rest.length = 18 := by
          simp only [List.length_cons] at hlen
          omega
        simp [create_nomic_map, hboot, hr]
      · simp only [List.length_cons] at hlen ⊢
        simp [hlen']
        omega
      · simp
      · have h1 := List.countP_map (fun c => c == logConv.id)
          (fun r : IndexedRecord => r.conversation_id) recs'
        have h2 := List.countP_map (fun c => c == logConv.id)
          (fun r : HistRow => r.convo_id) rest
        have hc0 : List.countP
            ((fun c => c == logConv.id) ∘ fun r : IndexedRecord =>
              r.conversation_id) recs' =
            List.countP
            ((fun c => c == logConv.id) ∘ fun r : HistRow => r.convo_id)
            rest := by
          rw [← h1, hcids', h2]
        have hc : recs'.countP (fun r => r.conversation_id == logConv.id) =
            rest.countP (fun r => r.convo_id == logConv.id) := by
          simpa [Function.comp] using hc0
        simp [List.countP_cons, hmatch, hc]

/-- C9 (witness for the amended theorem), merging the three-message
triggering conversation into the matching first row of nineteen. -/
theorem C9_witness :
    ∃ recs qs,
      create_nomic_map "CS" (rowC :: List.replicate 18 rowH) logC9
          "2023-02-02 00:00:00" = BootstrapOut.bulk recs qs ∧
      recs.length = 19 ∧
      (recs.map (fun r => r.conversation)).head? =
        some ("\n>>> 🙋 user: hi\n\n>>> 🙋 user: a\n\n>>> 🤖 assistant: b\n\n>>> 🙋 user: c\n") ∧
      recs.countP (fun r => r.conversation_id == logC9.id) =
        (rowC :: List.replicate 18 rowH).countP
          (fun r => r.convo_id == logC9.id) :=
  C9_amended "CS" "2023-02-02 00:00:00" rowC (List.replicate 18 rowH) logC9
    "\n>>> 🙋 user: hi\n"
    "\n>>> 🙋 user: hi\n\n>>> 🙋 user: a\n\n>>> 🤖 assistant: b\n\n>>> 🙋 user: c\n"
    (by decide) (by decide) (by decide) (by decide) (by decide) (by decide)

/-! ### Claim C10: first_query re-derivation on UPDATE -/

/-- C10.  On every UPDATE the stored `first_query` is not taken from
the message list but re-derived by parsing the previously stored
transcript — the second line, keeping the text between the first `": "`
separator and the next one — and consequently, whenever the original
first query contained `": "` or a newline, the re-derived value differs
from the original first query.  The hypotheses say that the prior
transcript is the insert-time rendering of the original messages
(first message `m0` resolving to text `t0`), possibly extended by later
appended blocks (`suffix`). -/
theorem C10_theorem (course now suffix : String) (conv : Conversation)
    (snap : Snapshot) (embed : String → Emb) (prev : IndexedRecord)
    (emb : Emb) (nc t0 T : String) (m0 : Message) (origRest : List Message)
    (hfind : snap.records.find?
      (fun r => r.conversation_id == conv.id) = some prev)
    (hemb : pyGet snap.embeddings
      ((snap.records.findIdx (fun r => r.conversation_id == conv.id) : Int)
        - 1) = some emb)
    (happ : appendMessages prev.conversation (lastTwo conv.messages) = some nc)
    (hrole : m0.role = "user" ∨ m0.role = "assistant")
    (ht0 : m0.content.text? = some t0)
    (hT : appendMessages "" (m0 :: origRest) = some T)
    (hprev : prev.conversation = T ++ suffix) :
    ∃ (d : String) (rec : IndexedRecord),
      parse_first_query prev.conversation = some d ∧
      logStep course conv snap embed now = StepResult.updated rec emb prev.id ∧
      rec.first_query = Content.str d ∧
      ((hasColonSp t0.data = true ∨ '\n' ∈ t0.data) → d ≠ t0) := by
  have hL0 : formatLine m0 =
      some ("\n>>> " ++ emoji m0.role ++ m0.role ++ ": " ++ t0 ++ "\n") := by
    simp [formatLine, ht0]
  have hT' : appendMessages
      ("" ++ ("\n>>> " ++ emoji m0.role ++ m0.role ++ ": " ++ t0 ++ "\n"))
      origRest = some T := by
    rw [← hT]
    rw [show appendMessages "" (m0 :: origRest) =
      (match formatLine m0 with
       | none => none
       | some l => appendMessages ("" ++ l) origRest) from rfl]
    rw [hL0]
  rw [appendMessages_acc] at hT'
  cases hrest : appendMessages "" origRest with
  | none => rw [hrest] at hT'; simp at hT'
  | some T2 =>
    rw [hrest] at hT'
    simp only [Option.map_some', Option.some.injEq] at hT'
    have hconv : prev.conversation =
        ("\n>>> " ++ emoji m0.role ++ m0.role ++ ": " ++ t0 ++ "\n") ++
          (T2 ++ suffix) := by
      rw [hprev, ← hT']
      simp [String.empty_append, String.append_assoc]
    have d1 : ("\n>>> " : String).data = ['\n', '>', '>', '>', ' '] := rfl
    have d2 : ("🙋 " : String).data = ['🙋', ' '] := rfl
    have d3 : ("user" : String).data = ['u', 's', 'e', 'r'] := rfl
    have d4 : (": " : String).data = [':', ' '] := rfl
    have d5 : ("\n" : String).data = ['\n'] := rfl
    have d6 : ("🤖 " : String).data = ['🤖', ' '] := rfl
    have d7 : ("assistant" : String).data =
      ['a', 's', 's', 'i', 's', 't', 'a', 'n', 't'] := rfl
    rcases hrole with hu | ha
    · have hdata : prev.conversation.data =
          '\n' :: (['>', '>', '>', ' ', '🙋', ' ', 'u', 's', 'e', 'r'] ++
            (':' :: ' ' :: (t0.data ++ '\n' :: (T2 ++ suffix).data))) := by
        rw [hconv, hu]
        simp [emoji, String.data_append, d1, d2, d3, d4, d5]
      have hmk : prev.conversation = String.mk
          ('\n' :: (['>', '>', '>', ' ', '🙋', ' ', 'u', 's', 'e', 'r'] ++
            (':' :: ' ' :: (t0.data ++ '\n' :: (T2 ++ suffix).data)))) := by
        exact congrArg String.mk hdata
      obtain ⟨d, hpar, hne⟩ := parse_block
        ['>', '>', '>', ' ', '🙋', ' ', 'u', 's', 'e', 'r'] t0
        ((T2 ++ suffix).data) (by decide) (by decide)
      rw [← hmk] at hpar
      exact ⟨d, _, hpar,
        logStep_update_eq course now conv snap embed prev emb d nc
          hfind hemb hpar happ, rfl, hne⟩
    · have hdata : prev.conversation.data =
          '\n' :: (['>', '>', '>', ' ', '🤖', ' ', 'a', 's', 's', 'i', 's',
              't', 'a', 'n', 't'] ++
            (':' :: ' ' :: (t0.data ++ '\n' :: (T2 ++ suffix).data))) := by
        rw [hconv, ha]
        simp [emoji, String.data_append, d1, d4, d5, d6, d7]
      have hmk : prev.conversation = String.mk
          ('\n' :: (['>', '>', '>', ' ', '🤖', ' ', 'a', 's', 's', 'i', 's',
              't', 'a', 'n', 't'] ++
            (':' :: ' ' :: (t0.data ++ '\n' :: (T2 ++ suffix).data)))) := by
        exact congrArg String.mk hdata
      obtain ⟨d, hpar, hne⟩ := parse_block
        ['>', '>', '>', ' ', '🤖', ' ', 'a', 's', 's', 'i', 's', 't', 'a',
          'n', 't'] t0
        ((T2 ++ suffix).data) (by decide) (by decide)
      rw [← hmk] at hpar
      exact ⟨d, _, hpar,
        logStep_update_eq course now conv snap embed prev emb d nc
          hfind hemb hpar happ, rfl, hne⟩

/-- C10 (witness), updating a conversation whose original first query
`"a: b"` contains `": "`: the re-derived `first_query` differs from the
original. -/
theorem C10_witness :
    ∃ (d : String) (rec : IndexedRecord),
      parse_first_query R10.conversation = some d ∧
      logStep "CS" conv10 snapC10 embT "2023-02-02 00:00:00" =
        StepResult.updated rec [7] R10.id ∧
      rec.first_query = Content.str d ∧
      ((hasColonSp ("a: b" : String).data = true ∨
          '\n' ∈ ("a: b" : String).data) → d ≠ "a: b") :=
  C10_theorem "CS" "2023-02-02 00:00:00" "" conv10 snapC10 embT R10 [7]
    ("\n>>> 🙋 user: a: b\n" ++ "\n>>> 🙋 user: more\n")
    "a: b" "\n>>> 🙋 user: a: b\n" (mU "a: b") []
    (by decide) (by decide) (by decide) (by decide) (by decide) (by decide)
    (by decide)
